import Mathlib

/-!
Shallow embedding of the projection engine of the nfl-fantasy-draft-assistant
repository (the canonical projections route handler: `weeklyPoints`,
`didPlay`, `lastNPlayedPoints`, `ageMultiplier`, `projectPPG`, `fetchWeek`,
`buildProjectionsFor`, the module-level caches and the `GET` handler), with
one theorem per specification claim.

Modelling conventions:
* JavaScript numbers are modelled as exact rationals (ℚ).  Every constant the
  engine manipulates (0.04, 0.1, 0.5, 6, timestamps in ms, ...) is an exact
  decimal, so all claim-relevant arithmetic is exact in ℚ.  The
  `Number.isFinite` coercions in the source guard against float
  infinities/NaN; in exact arithmetic every value is finite, so those guards
  are identities here (noted where they occur).
* Wall-clock quantities are explicit inputs: `Date.now()` is the `now`
  argument, and `Math.floor(yearsSince(birth_date))` is abstracted into the
  pre-floored `age` field carried on a player (`none` = absent/unparsable
  birth date).
* Network effects are oracles: `fetchWeek` takes the ordered list of
  candidate-URL outcomes, and the projection builder takes the already
  fetched list of weekly pages (one entry per (season, week) job, in job
  order, exactly as `fetchWeeksBatched` stores results positionally).
* `Array.prototype.sort` with a total comparator is stable (ES2019); it is
  modelled by Mathlib's stable `List.insertionSort` on the comparator's "≤"
  relation.
* `String.prototype.toUpperCase` is modelled by `upper` (per-character
  uppercasing), and JS `Map`s by association lists with first-match lookup
  and overwrite-on-set.
-/

namespace NFLDraft

/-- Per-character uppercasing; models `String.prototype.toUpperCase` for the
ASCII position/preset strings the route manipulates. -/
def upper (s : String) : String := ⟨s.data.map Char.toUpper⟩

/-- The TS type `WeeklyStat`: one player's line for one (season, week).
Optional numeric fields are `Option ℚ` (`none` = absent/undefined).  The TS
field `rec` (receptions) is named `recs` here because `rec` is reserved for
the recursor in Lean. -/
structure WeeklyStat where
  week : ℚ
  season : ℚ
  player_id : String
  pts_ppr : Option ℚ := none
  pts_half_ppr : Option ℚ := none
  pts_std : Option ℚ := none
  pass_yd : Option ℚ := none
  pass_td : Option ℚ := none
  pass_int : Option ℚ := none
  rush_yd : Option ℚ := none
  rush_td : Option ℚ := none
  recs : Option ℚ := none
  rec_yd : Option ℚ := none
  rec_td : Option ℚ := none
  targets : Option ℚ := none
  carries : Option ℚ := none
  deriving Repr, DecidableEq

/-- `weeklyPoints(stat, preset, passTd)`.  The route passes the preset
through as a raw (uppercased) string — `as ScoringPreset` is an unchecked TS
cast — so `preset` is a `String` here.  `x != null` on an optional field is
`Option.isSome`; `x ?? 0` is `Option.getD 0`. -/
def weeklyPoints (stat : WeeklyStat) (preset : String) (passTd : ℚ) : ℚ :=
  if preset = "PPR" ∧ stat.pts_ppr.isSome then stat.pts_ppr.getD 0
  else if preset = "HALF_PPR" ∧ stat.pts_half_ppr.isSome then stat.pts_half_ppr.getD 0
  else if preset = "STANDARD" ∧ stat.pts_std.isSome then stat.pts_std.getD 0
  else
    let passPts := (stat.pass_yd.getD 0) * 0.04 + (stat.pass_td.getD 0) * passTd
      + (stat.pass_int.getD 0) * (-1)
    let rushPts := (stat.rush_yd.getD 0) * 0.1 + (stat.rush_td.getD 0) * 6
    let catchBonus : ℚ := if preset = "PPR" then 1 else if preset = "HALF_PPR" then 0.5 else 0
    let recPts := (stat.rec_yd.getD 0) * 0.1 + (stat.rec_td.getD 0) * 6
      + (stat.recs.getD 0) * catchBonus
    passPts + rushPts + recPts

/-- The flat raw-component scoring formula exactly as the specification words
it (claim C1): `pass_yd*0.04 + pass_td*passTd + pass_int*(-1) + rush_yd*0.1 +
rush_td*6 + rec_yd*0.1 + rec_td*6 + rec*catchBonus`, absent components
treated as 0.  This is the spec-side definition, to be compared with the
source-side `weeklyPoints`. -/
def specRawPoints (stat : WeeklyStat) (passTd catchBonus : ℚ) : ℚ :=
  (stat.pass_yd.getD 0) * 0.04 + (stat.pass_td.getD 0) * passTd + (stat.pass_int.getD 0) * (-1)
    + (stat.rush_yd.getD 0) * 0.1 + (stat.rush_td.getD 0) * 6
    + (stat.rec_yd.getD 0) * 0.1 + (stat.rec_td.getD 0) * 6 + (stat.recs.getD 0) * catchBonus

/-- `didPlay(w)`: meaningful usage signal (`pts_ppr` present and nonzero, or
any usage counter `> 0`). -/
def didPlay (w : WeeklyStat) : Bool :=
  (w.pts_ppr.isSome && decide (w.pts_ppr.getD 0 ≠ 0))
  || decide (0 < w.pass_td.getD 0) || decide (0 < w.pass_yd.getD 0)
  || decide (0 < w.rush_td.getD 0) || decide (0 < w.rush_yd.getD 0)
  || decide (0 < w.recs.getD 0) || decide (0 < w.rec_td.getD 0)
  || decide (0 < w.rec_yd.getD 0) || decide (0 < w.targets.getD 0)
  || decide (0 < w.carries.getD 0)

/-- The "≤" relation of the ascending comparator in `lastNPlayedPoints`
(`a.season !== b.season ? a.season - b.season : a.week - b.week`). -/
def chronoR (a b : WeeklyStat) : Prop :=
  a.season < b.season ∨ (a.season = b.season ∧ a.week ≤ b.week)

instance : DecidableRel chronoR := fun a b => by unfold chronoR; infer_instance

instance : IsTotal WeeklyStat chronoR :=
  ⟨by
    intro a b
    unfold chronoR
    rcases lt_trichotomy a.season b.season with h | h | h
    · exact Or.inl (Or.inl h)
    · rcases le_total a.week b.week with hw | hw
      · exact Or.inl (Or.inr ⟨h, hw⟩)
      · exact Or.inr (Or.inr ⟨h.symm, hw⟩)
    · exact Or.inr (Or.inl h)⟩

instance : IsTrans WeeklyStat chronoR :=
  ⟨by
    intro a b c hab hbc
    unfold chronoR at *
    rcases hab with h1 | ⟨h1, h1'⟩ <;> rcases hbc with h2 | ⟨h2, h2'⟩
    · exact Or.inl (lt_trans h1 h2)
    · exact Or.inl (h2 ▸ h1)
    · exact Or.inl (h1 ▸ h2)
    · exact Or.inr ⟨h1.trans h2, le_trans h1' h2'⟩⟩

/-- `lastNPlayedPoints(weeks, n, preset, passTd)`: sort ascending by
(season, week) — a stable sort, as JS `Array.prototype.sort` is — filter to
played weeks, score each, keep the final `n` values
(`pts.slice(Math.max(0, pts.length - n))`, i.e. `drop` with truncated
subtraction). -/
def lastNPlayedPoints (weeks : List WeeklyStat) (n : Nat) (preset : String) (passTd : ℚ) :
    List ℚ :=
  let ordered := List.insertionSort chronoR weeks
  let pts := (ordered.filter didPlay).map (fun w => weeklyPoints w preset passTd)
  pts.drop (pts.length - n)

/-- `average(xs)`: 0 on an empty list. -/
def average (xs : List ℚ) : ℚ := if xs.length = 0 then 0 else xs.sum / (xs.length : ℚ)

/-- `clamp(n, min, max) = Math.max(min, Math.min(max, n))`. -/
def clamp (n mn mx : ℚ) : ℚ := max mn (min mx n)

/-- `ageMultiplier(pos, age)`.  `!age` (undefined, 0 — the JS falsy numbers)
returns 1; otherwise one multiplicative adjustment per position with the
source's rate/cap table; unknown positions keep the multiplier at 1.  The
source's local `d = age - peak` is inlined. -/
def ageMultiplier (pos : String) (age : Option ℚ) : ℚ :=
  if age = none ∨ age = some 0 then 1
  else if pos = "RB" then
    if 0 < age.getD 0 - 26 then 1 - clamp (0.06 * (age.getD 0 - 26)) 0 0.25
    else 1 + clamp (0.02 * -(age.getD 0 - 26)) 0 0.08
  else if pos = "WR" then
    if 0 < age.getD 0 - 27 then 1 - clamp (0.03 * (age.getD 0 - 27)) 0 0.18
    else 1 + clamp (0.015 * -(age.getD 0 - 27)) 0 0.06
  else if pos = "TE" then
    if 0 < age.getD 0 - 28 then 1 - clamp (0.02 * (age.getD 0 - 28)) 0 0.12
    else 1 + clamp (0.01 * -(age.getD 0 - 28)) 0 0.05
  else if pos = "QB" then
    if 0 < age.getD 0 - 32 then 1 - clamp (0.015 * (age.getD 0 - 32)) 0 0.12
    else 1 + clamp (0.01 * -(age.getD 0 - 32)) 0 0.05
  else 1

/-- `projectPPG(weeks, preset, passTd, pos, birth)`; the wall-clock
`Math.floor(yearsSince(birth))` is the pre-floored `age` input. -/
def projectPPG (weeks : List WeeklyStat) (preset : String) (passTd : ℚ) (pos : String)
    (age : Option ℚ) : ℚ :=
  average (lastNPlayedPoints weeks 50 preset passTd) * ageMultiplier pos age

/-- A raw upstream stats object: duck-typed numeric fields keyed by name
(JS object keys are unique; lookup takes the first matching key). -/
abbrev RawStats := List (String × ℚ)

def getField (s : RawStats) (k : String) : Option ℚ :=
  (s.find? (fun p => decide (p.1 = k))).map (·.2)

/-- `st.k1 ?? st.k2` over a raw stats object. -/
def getF2 (s : RawStats) (k1 k2 : String) : Option ℚ :=
  (getField s k1).orElse (fun _ => getField s k2)

/-- `st.k1 ?? st.k2 ?? st.k3`. -/
def getF3 (s : RawStats) (k1 k2 k3 : String) : Option ℚ :=
  (getF2 s k1 k2).orElse (fun _ => getField s k3)

/-- One raw per-player record of a weekly page.  `player_id` is the result
of `String(row.player_id)` (`""` when falsy), `season`/`week` are `none`
when `Number.isFinite(+row.season)` / `(+row.week)` fails, `stats` is the
optional nested stats object and `own` the row's own numeric fields
(`row.stats ?? row`). -/
structure RawRow where
  player_id : String
  season : Option ℚ := none
  week : Option ℚ := none
  stats : Option RawStats := none
  own : RawStats := []
  deriving Repr, DecidableEq

/-- The per-row normalization inside `buildProjectionsFor`'s bucketing loop:
drop the row when the id is empty or season/week are not finite numbers,
else resolve each canonical field through its synonym chain. -/
def normalizeRow (r : RawRow) : Option WeeklyStat :=
  if r.player_id = "" ∨ r.season = none ∨ r.week = none then none
  else
    let st := r.stats.getD r.own
    some {
      week := r.week.getD 0
      season := r.season.getD 0
      player_id := r.player_id
      pts_ppr := getF2 st "pts_ppr" "ppr_points"
      pts_half_ppr := getField st "pts_half_ppr"
      pts_std := getField st "pts_std"
      pass_yd := getF2 st "pass_yd" "passing_yards"
      pass_td := getF2 st "pass_td" "passing_tds"
      pass_int := getF2 st "pass_int" "interceptions"
      rush_yd := getF2 st "rush_yd" "rushing_yards"
      rush_td := getF2 st "rush_td" "rushing_tds"
      recs := getF2 st "rec" "receptions"
      rec_yd := getF2 st "rec_yd" "receiving_yards"
      rec_td := getF2 st "rec_td" "receiving_tds"
      targets := getF3 st "targets" "rec_tgt" "tgt"
      carries := getF3 st "carries" "rush_att" "rushing_att" }

/-- All normalized rows of all fetched pages, in arrival order.  The source
buckets these into a `Map` keyed by player id; per-id insertion order is
preserved, so a player's bucket is recovered by filtering this list
(`bucketFor`). -/
def bucketRows (pages : List (List RawRow)) : List WeeklyStat :=
  pages.flatMap (fun arr => arr.filterMap normalizeRow)

/-- `bucket.get(id) ?? []`. -/
def bucketFor (pages : List (List RawRow)) (id : String) : List WeeklyStat :=
  (bucketRows pages).filter (fun w => decide (w.player_id = id))

/-- The TS type `PlayerLite`; `age` is the pre-floored
`Math.floor(yearsSince(birth_date))` (see `projectPPG`). -/
structure PlayerLite where
  player_id : String
  full_name : String
  position : String
  team : Option String := none
  age : Option ℚ := none
  deriving Repr, DecidableEq

/-- The TS type `ProjectionRow`. -/
structure ProjectionRow where
  player_id : String
  full_name : String
  position : String
  team : Option String := none
  ppg : ℚ
  deriving Repr, DecidableEq

/-- `buildProjectionsFor(players, {preset, passTd})` with the fetched weekly
pages supplied as input.  `Number.isFinite(ppg) ? ppg : 0` is the identity
in exact arithmetic (every ℚ is finite), so `ppg` is the computed value. -/
def buildProjectionsFor (players : List PlayerLite) (pages : List (List RawRow))
    (preset : String) (passTd : ℚ) : List ProjectionRow :=
  players.map (fun p =>
    let weeks := bucketFor pages p.player_id
    let ppg := projectPPG weeks preset passTd p.position p.age
    { player_id := p.player_id
      full_name := p.full_name
      position := upper p.position
      team := p.team
      ppg := ppg })

/-- The body of one candidate-URL HTTP response, as `fetchWeek` inspects it:
a bare array, an object whose `stats` field is an array, or anything else. -/
inductive Body where
  | arr (rows : List RawRow)
  | objStats (rows : List RawRow)
  | other
  deriving Repr, DecidableEq

/-- Outcome of awaiting one candidate URL: the fetch rejected (network
error, abort, 12s timeout), resolved with `res.ok` false, or resolved ok
with a body. -/
inductive FetchResult where
  | thrown
  | notOk
  | ok (body : Body)
  deriving Repr, DecidableEq

def isFailure : FetchResult → Bool
  | .ok _ => false
  | _ => true

/-- `Array.isArray(data) ? data : Array.isArray(data?.stats) ? data.stats : []`. -/
def extractRows : Body → List RawRow
  | .arr rows => rows
  | .objStats rows => rows
  | .other => []

/-- `fetchWeek(season, week)` over the ordered candidate-URL outcomes: the
first ok response is normalized and returned; thrown/not-ok candidates are
swallowed and the next is tried; `[]` when the candidates run out.  A total
function: it never raises. -/
def fetchWeek : List FetchResult → List RawRow
  | [] => []
  | .ok b :: _ => extractRows b
  | .thrown :: rest => fetchWeek rest
  | .notOk :: rest => fetchWeek rest

/-- `fetchWeeksBatched(seasons)`: the (season × week 1..18) job matrix, with
results stored positionally (job order), each job resolved through
`fetchWeek` on its own candidate outcomes. -/
def fetchPages (seasons : List ℚ) (oracle : ℚ → Nat → List FetchResult) :
    List (List RawRow) :=
  seasons.flatMap (fun s => (List.range 18).map (fun i => fetchWeek (oracle s (i + 1))))

/-- Cache key: the string `` `${preset}-${passTd}-${pos-or-id}` `` modelled
as the triple of its components. -/
abbrev CacheKey := String × ℚ × String

def mapGet {α : Type} (m : List (CacheKey × α)) (k : CacheKey) : Option α :=
  (m.find? (fun p => decide (p.1 = k))).map (·.2)

def mapSet {α : Type} (m : List (CacheKey × α)) (k : CacheKey) (v : α) :
    List (CacheKey × α) :=
  (k, v) :: m.filter (fun p => !(decide (p.1 = k)))

def STALE_MS : ℚ := 12 * 60 * 60 * 1000

def POSITIONS : List String := ["QB", "RB", "WR", "TE"]

/-- Position-cache payload (`{ at, rows }`; `at` is a Lean keyword, hence
`atTime`). -/
structure PosEntry where
  atTime : ℚ
  rows : List ProjectionRow
  deriving Repr, DecidableEq

/-- Ids-cache payload (`{ at, row }`; `row` is optional because
`(await buildProjectionsFor([p], …))[0]` may be `undefined`). -/
structure IdEntry where
  atTime : ℚ
  row : Option ProjectionRow
  deriving Repr, DecidableEq

/-- The two module-level mutable caches (`posCache`, `idsCache`). -/
structure ServerState where
  posCache : List (CacheKey × PosEntry) := []
  idsCache : List (CacheKey × IdEntry) := []
  deriving Repr, DecidableEq

/-- The query parameters of one request.  `none` models an absent (or, for
`preset`/`pos`, empty — falsy) parameter; `ids`/`exclude` are pre-split on
commas. -/
structure ReqParams where
  preset : Option String := none
  passTdRaw : Option ℚ := none
  limitRaw : Option ℚ := none
  exclude : List String := []
  ids : Option (List String) := none
  pos : Option String := none
  deriving Repr, DecidableEq

/-- The handler's HTTP response, shape only. -/
inductive HResp where
  | ok (preset : String) (passTd : ℚ) (players : List ProjectionRow)
  | okIds (preset : String) (passTd : ℚ) (players : List (Option ProjectionRow))
  | clientError (msg : String)
  | serverError
  deriving Repr, DecidableEq

def statusOf : HResp → Nat
  | .ok _ _ _ => 200
  | .okIds _ _ _ => 200
  | .clientError _ => 400
  | .serverError => 500

/-- "≤" of the descending `(a, b) => b.ppg - a.ppg` comparator. -/
def ppgDescR (a b : ProjectionRow) : Prop := b.ppg ≤ a.ppg

instance : DecidableRel ppgDescR := fun a b => by unfold ppgDescR; infer_instance

/-- Post-processing of a fresh position-cache hit: exclude, the `// safety`
position filter, sort by ppg descending, truncate. -/
def pruneCached (rows : List ProjectionRow) (exclude : List String) (wantPos : String)
    (limit : Nat) : List ProjectionRow :=
  (List.insertionSort ppgDescR
    ((rows.filter (fun r => !(exclude.contains r.player_id))).filter
      (fun r => decide (upper r.position = wantPos)))).take limit

/-- Post-processing of freshly built (already position-pinned) rows:
exclude, sort by ppg descending, truncate. -/
def pruneBuilt (rows : List ProjectionRow) (exclude : List String) (limit : Nat) :
    List ProjectionRow :=
  (List.insertionSort ppgDescR
    (rows.filter (fun r => !(exclude.contains r.player_id)))).take limit

/-- Result of the ids-path loop: the (possibly mutated) ids cache, the number
of `buildProjectionsFor` invocations, and the accumulated output — or the
propagated exception. -/
structure IdsLoopOut where
  cache : List (CacheKey × IdEntry)
  builds : Nat
  result : Except Unit (List (Option ProjectionRow))
  deriving Repr

/-- The per-player loop of the ids fast path: serve a fresh cached row, else
build this one player, store `{at: now, row}` and emit the row.  An
exception from the build propagates, leaving the writes made so far in the
cache (the source mutates the module-level `Map` in place). -/
def idsLoop (build : String → ℚ → List PlayerLite → Except Unit (List ProjectionRow))
    (preset : String) (passTd : ℚ) (now : ℚ) :
    List PlayerLite → List (CacheKey × IdEntry) → List (Option ProjectionRow) → Nat →
    IdsLoopOut
  | [], cache, acc, builds => ⟨cache, builds, .ok acc.reverse⟩
  | p :: rest, cache, acc, builds =>
    match mapGet cache (preset, passTd, p.player_id) with
    | some c =>
      if now - c.atTime < STALE_MS ∧ c.row.isSome then
        idsLoop build preset passTd now rest cache (c.row :: acc) builds
      else
        match build preset passTd [p] with
        | .error e => ⟨cache, builds + 1, .error e⟩
        | .ok rows =>
          idsLoop build preset passTd now rest
            (mapSet cache (preset, passTd, p.player_id) ⟨now, rows.head?⟩)
            (rows.head? :: acc) (builds + 1)
    | none =>
      match build preset passTd [p] with
      | .error e => ⟨cache, builds + 1, .error e⟩
      | .ok rows =>
        idsLoop build preset passTd now rest
          (mapSet cache (preset, passTd, p.player_id) ⟨now, rows.head?⟩)
          (rows.head? :: acc) (builds + 1)

/-- The position-path rebuild: fetch players, filter to the requested
position, build, pin positions, overwrite the cache entry, respond with the
pruned rows.  An exception in fetching or building reaches the handler's
catch: generic failure, cache untouched. -/
def posRebuild (st : ServerState) (now : ℚ) (preset : String) (passTd : ℚ)
    (wantPos : String) (exclude : List String) (limit : Nat)
    (fetchPlayersR : Except Unit (List PlayerLite))
    (build : String → ℚ → List PlayerLite → Except Unit (List ProjectionRow)) :
    HResp × ServerState × Nat :=
  match fetchPlayersR with
  | .error _ => (.serverError, st, 0)
  | .ok allPlayers =>
    let subset := allPlayers.filter (fun p => decide (upper p.position = wantPos))
    match build preset passTd subset with
    | .error _ => (.serverError, st, 1)
    | .ok rows =>
      let normalized := rows.map (fun r => { r with position := wantPos })
      (.ok preset passTd (pruneBuilt normalized exclude limit),
        { st with posCache := mapSet st.posCache (preset, passTd, wantPos) ⟨now, normalized⟩ },
        1)

/-- The `GET` route handler.  `fetchPlayersR` is the outcome of
`fetchPlayers()` and `build` the (preset- and passTd-newly-applied)
`buildProjectionsFor`; either may raise (`Except.error`), which the
outermost try/catch turns into the generic 500 response.  The returned `Nat`
counts `buildProjectionsFor` invocations. -/
def GET (st : ServerState) (now : ℚ) (req : ReqParams)
    (fetchPlayersR : Except Unit (List PlayerLite))
    (build : String → ℚ → List PlayerLite → Except Unit (List ProjectionRow)) :
    HResp × ServerState × Nat :=
  let preset := upper (req.preset.getD "PPR")
  let passTd : ℚ := if req.passTdRaw.getD 4 = 6 then 6 else 4
  let limit : Nat := (⌊clamp (req.limitRaw.getD 50) 1 200⌋).toNat
  match req.ids with
  | some ids =>
    match fetchPlayersR with
    | .error _ => (.serverError, st, 0)
    | .ok allPlayers =>
      let subset := allPlayers.filter (fun p => ids.contains p.player_id)
      let r := idsLoop build preset passTd now subset st.idsCache [] 0
      match r.result with
      | .error _ => (.serverError, { st with idsCache := r.cache }, r.builds)
      | .ok out => (.okIds preset passTd out, { st with idsCache := r.cache }, r.builds)
  | none =>
    let posParam := upper (req.pos.getD "")
    if POSITIONS.contains posParam then
      match mapGet st.posCache (preset, passTd, posParam) with
      | some c =>
        if now - c.atTime < STALE_MS then
          (.ok preset passTd (pruneCached c.rows req.exclude posParam limit), st, 0)
        else posRebuild st now preset passTd posParam req.exclude limit fetchPlayersR build
      | none => posRebuild st now preset passTd posParam req.exclude limit fetchPlayersR build
    else
      (.clientError "Provide ?pos=QB|RB|WR|TE or ids=...", st, 0)

/-- The projection builder as a never-throwing build function over fixed
fetched pages (the pure core: same players, pages and config always yield
the same rows). -/
def pureBuild (pages : List (List RawRow)) :
    String → ℚ → List PlayerLite → Except Unit (List ProjectionRow) :=
  fun preset passTd players => .ok (buildProjectionsFor players pages preset passTd)

/-- `GET` with a successful roster fetch and the pure builder. -/
def GETPure (st : ServerState) (now : ℚ) (req : ReqParams) (playersL : List PlayerLite)
    (pages : List (List RawRow)) : HResp × ServerState × Nat :=
  GET st now req (.ok playersL) (pureBuild pages)

/-! ### Shared helper lemmas -/

theorem lastNPlayedPoints_eq_drop (weeks : List WeeklyStat) (n : Nat) (preset : String)
    (passTd : ℚ) :
    lastNPlayedPoints weeks n preset passTd =
      (((List.insertionSort chronoR weeks).filter didPlay).drop
        (((List.insertionSort chronoR weeks).filter didPlay).length - n)).map
        (fun w => weeklyPoints w preset passTd) := by
  simp only [lastNPlayedPoints]
  rw [List.length_map, List.map_drop]

theorem lastN_mem (weeks : List WeeklyStat) (n : Nat) (preset : String) (passTd : ℚ) :
    ∀ x ∈ lastNPlayedPoints weeks n preset passTd,
      ∃ w, w ∈ weeks ∧ didPlay w = true ∧ x = weeklyPoints w preset passTd := by
  intro x hx
  rw [lastNPlayedPoints_eq_drop] at hx
  obtain ⟨w, hw, hwx⟩ := List.mem_map.mp hx
  have hw1 : w ∈ (List.insertionSort chronoR weeks).filter didPlay :=
    List.Sublist.mem hw (List.drop_sublist _ _)
  have hw2 := List.mem_filter.mp hw1
  exact ⟨w, (List.perm_insertionSort chronoR weeks).subset hw2.1, hw2.2, hwx.symm⟩

theorem average_nonneg (xs : List ℚ) (h : ∀ x ∈ xs, 0 ≤ x) : 0 ≤ average xs := by
  unfold average
  split_ifs with hx
  · exact le_refl 0
  · exact div_nonneg (List.sum_nonneg h) (by positivity)

theorem le_clamp (n mn mx : ℚ) : mn ≤ clamp n mn mx := le_max_left _ _

theorem clamp_le (n mn mx : ℚ) (h : mn ≤ mx) : clamp n mn mx ≤ mx :=
  max_le h (min_le_left _ _)

theorem one_sub_clamp_bounds (v cap lo : ℚ) (h0 : 0 ≤ cap) (hlo : lo ≤ 1 - cap) :
    lo ≤ 1 - clamp v 0 cap ∧ 1 - clamp v 0 cap ≤ 1 := by
  have h1 := le_clamp v 0 cap
  have h2 := clamp_le v 0 cap h0
  constructor <;> linarith

theorem one_add_clamp_bounds (v cap hi : ℚ) (h0 : 0 ≤ cap) (hhi : 1 + cap ≤ hi) :
    1 ≤ 1 + clamp v 0 cap ∧ 1 + clamp v 0 cap ≤ hi := by
  have h1 := le_clamp v 0 cap
  have h2 := clamp_le v 0 cap h0
  constructor <;> linarith

theorem ageMultiplier_nonneg (pos : String) (a : Option ℚ) : 0 ≤ ageMultiplier pos a := by
  unfold ageMultiplier
  split_ifs
  all_goals
    first
    | exact zero_le_one
    | exact (one_sub_clamp_bounds _ _ 0 (by norm_num) (by norm_num)).1
    | exact le_trans zero_le_one (one_add_clamp_bounds _ _ _ (by norm_num) le_rfl).1

/-! ### Claim C1 -/

/-- C1: for every weekly stat record, scoring preset and passTd value, the
scoring function returns the matching precomputed point field unchanged when
present for the chosen preset (`pts_ppr` for PPR, `pts_half_ppr` for
HALF_PPR, `pts_std` for STANDARD), and otherwise the raw component formula
`pass_yd*0.04 + pass_td*passTd + pass_int*(-1) + rush_yd*0.1 + rush_td*6 +
rec_yd*0.1 + rec_td*6 + rec*catchBonus` with catch bonus 1 / 0.5 / 0,
absent components treated as 0. -/
theorem weeklyPoints_claim (stat : WeeklyStat) (passTd : ℚ) :
    (∀ v, stat.pts_ppr = some v → weeklyPoints stat "PPR" passTd = v) ∧
    (∀ v, stat.pts_half_ppr = some v → weeklyPoints stat "HALF_PPR" passTd = v) ∧
    (∀ v, stat.pts_std = some v → weeklyPoints stat "STANDARD" passTd = v) ∧
    (stat.pts_ppr = none → weeklyPoints stat "PPR" passTd = specRawPoints stat passTd 1) ∧
    (stat.pts_half_ppr = none →
      weeklyPoints stat "HALF_PPR" passTd = specRawPoints stat passTd 0.5) ∧
    (stat.pts_std = none → weeklyPoints stat "STANDARD" passTd = specRawPoints stat passTd 0) := by
  refine ⟨fun v hv => ?_, fun v hv => ?_, fun v hv => ?_, fun h => ?_, fun h => ?_, fun h => ?_⟩
  · simp [weeklyPoints, hv]
  · simp [weeklyPoints, hv]
  · simp [weeklyPoints, hv]
  · simp [weeklyPoints, specRawPoints, h]; ring
  · simp [weeklyPoints, specRawPoints, h]; ring
  · simp [weeklyPoints, specRawPoints, h]; ring

/-- Witness for C1 at a concrete stat line. -/
theorem weeklyPoints_claim_witness :
    weeklyPoints { week := 1, season := 2024, player_id := "x", pts_ppr := some 7 } "PPR" 4 = 7 ∧
    weeklyPoints { week := 1, season := 2024, player_id := "x", rush_yd := some 30 } "STANDARD" 4
      = specRawPoints { week := 1, season := 2024, player_id := "x", rush_yd := some 30 } 4 0 :=
  ⟨(weeklyPoints_claim _ 4).1 7 rfl, (weeklyPoints_claim _ 4).2.2.2.2.2 rfl⟩

/-! ### Claim C2 -/

/-- C2: `lastNPlayedPoints` returns at most `n` numbers, in ascending
chronological order by (season, week), drawn only from records where
`didPlay` is true, each mapped through the scoring function; the result has
fewer than `n` entries when fewer played weeks exist (length is exactly
`min n (played count)`), and is empty when no played weeks exist. -/
theorem lastNPlayedPoints_claim (weeks : List WeeklyStat) (n : Nat) (preset : String)
    (passTd : ℚ) :
    (lastNPlayedPoints weeks n preset passTd).length = min n ((weeks.filter didPlay).length) ∧
    ∃ ws : List WeeklyStat, ws.Pairwise chronoR ∧
      (∀ w ∈ ws, w ∈ weeks ∧ didPlay w = true) ∧
      lastNPlayedPoints weeks n preset passTd = ws.map (fun w => weeklyPoints w preset passTd) := by
  have hperm := List.perm_insertionSort chronoR weeks
  have hsorted := List.sorted_insertionSort chronoR weeks
  have hlen : ((List.insertionSort chronoR weeks).filter didPlay).length
      = (weeks.filter didPlay).length := (hperm.filter didPlay).length_eq
  constructor
  · rw [lastNPlayedPoints_eq_drop, List.length_map, List.length_drop, hlen]
    omega
  · refine ⟨((List.insertionSort chronoR weeks).filter didPlay).drop
      (((List.insertionSort chronoR weeks).filter didPlay).length - n), ?_, ?_, ?_⟩
    · exact List.Pairwise.sublist ((List.drop_sublist _ _).trans (List.filter_sublist _)) hsorted
    · intro w hw
      have hw1 := List.Sublist.mem hw (List.drop_sublist _ _)
      have hw2 := List.mem_filter.mp hw1
      exact ⟨hperm.subset hw2.1, hw2.2⟩
    · exact lastNPlayedPoints_eq_drop weeks n preset passTd

/-- Witness for C2 at a concrete history (three records, one not played,
window 1). -/
theorem lastNPlayedPoints_claim_witness :
    (lastNPlayedPoints
        [{ week := 2, season := 2023, player_id := "a", pts_ppr := some 20 },
         { week := 1, season := 2023, player_id := "a", pts_ppr := some 10 },
         { week := 3, season := 2023, player_id := "a" }] 1 "PPR" 4).length
      = min 1
        (([{ week := 2, season := 2023, player_id := "a", pts_ppr := some 20 },
           { week := 1, season := 2023, player_id := "a", pts_ppr := some 10 },
           { week := 3, season := 2023, player_id := "a" }].filter didPlay).length) :=
  (lastNPlayedPoints_claim _ 1 "PPR" 4).1

/-! ### Claim C4 -/

theorem ageMultiplier_RB_eq (a : ℚ) (h : ¬a = 0) :
    ageMultiplier "RB" (some a) =
      if 0 < a - 26 then 1 - clamp (0.06 * (a - 26)) 0 0.25
      else 1 + clamp (0.02 * -(a - 26)) 0 0.08 := by
  simp [ageMultiplier, h]

theorem ageMultiplier_WR_eq (a : ℚ) (h : ¬a = 0) :
    ageMultiplier "WR" (some a) =
      if 0 < a - 27 then 1 - clamp (0.03 * (a - 27)) 0 0.18
      else 1 + clamp (0.015 * -(a - 27)) 0 0.06 := by
  simp [ageMultiplier, h]

theorem ageMultiplier_TE_eq (a : ℚ) (h : ¬a = 0) :
    ageMultiplier "TE" (some a) =
      if 0 < a - 28 then 1 - clamp (0.02 * (a - 28)) 0 0.12
      else 1 + clamp (0.01 * -(a - 28)) 0 0.05 := by
  simp [ageMultiplier, h]

theorem ageMultiplier_QB_eq (a : ℚ) (h : ¬a = 0) :
    ageMultiplier "QB" (some a) =
      if 0 < a - 32 then 1 - clamp (0.015 * (a - 32)) 0 0.12
      else 1 + clamp (0.01 * -(a - 32)) 0 0.05 := by
  simp [ageMultiplier, h]

theorem ageMultiplier_RB_bounds (a : Option ℚ) :
    1 - 0.25 ≤ ageMultiplier "RB" a ∧ ageMultiplier "RB" a ≤ 1 + 0.08 := by
  rcases a with _ | x
  · simp [ageMultiplier]; norm_num
  · by_cases hx : x = 0
    · subst hx; simp [ageMultiplier]; norm_num
    · rw [ageMultiplier_RB_eq x hx]
      split_ifs with hd
      · obtain ⟨l, u⟩ := one_sub_clamp_bounds (0.06 * (x - 26)) 0.25 (1 - 0.25)
          (by norm_num) (by norm_num)
        exact ⟨l, by linarith⟩
      · obtain ⟨l, u⟩ := one_add_clamp_bounds (0.02 * -(x - 26)) 0.08 (1 + 0.08)
          (by norm_num) (by norm_num)
        exact ⟨by linarith, u⟩

theorem ageMultiplier_WR_bounds (a : Option ℚ) :
    1 - 0.18 ≤ ageMultiplier "WR" a ∧ ageMultiplier "WR" a ≤ 1 + 0.06 := by
  rcases a with _ | x
  · simp [ageMultiplier]; norm_num
  · by_cases hx : x = 0
    · subst hx; simp [ageMultiplier]; norm_num
    · rw [ageMultiplier_WR_eq x hx]
      split_ifs with hd
      · obtain ⟨l, u⟩ := one_sub_clamp_bounds (0.03 * (x - 27)) 0.18 (1 - 0.18)
          (by norm_num) (by norm_num)
        exact ⟨l, by linarith⟩
      · obtain ⟨l, u⟩ := one_add_clamp_bounds (0.015 * -(x - 27)) 0.06 (1 + 0.06)
          (by norm_num) (by norm_num)
        exact ⟨by linarith, u⟩

theorem ageMultiplier_TE_bounds (a : Option ℚ) :
    1 - 0.12 ≤ ageMultiplier "TE" a ∧ ageMultiplier "TE" a ≤ 1 + 0.05 := by
  rcases a with _ | x
  · simp [ageMultiplier]; norm_num
  · by_cases hx : x = 0
    · subst hx; simp [ageMultiplier]; norm_num
    · rw [ageMultiplier_TE_eq x hx]
      split_ifs with hd
      · obtain ⟨l, u⟩ := one_sub_clamp_bounds (0.02 * (x - 28)) 0.12 (1 - 0.12)
          (by norm_num) (by norm_num)
        exact ⟨l, by linarith⟩
      · obtain ⟨l, u⟩ := one_add_clamp_bounds (0.01 * -(x - 28)) 0.05 (1 + 0.05)
          (by norm_num) (by norm_num)
        exact ⟨by linarith, u⟩

theorem ageMultiplier_QB_bounds (a : Option ℚ) :
    1 - 0.12 ≤ ageMultiplier "QB" a ∧ ageMultiplier "QB" a ≤ 1 + 0.05 := by
  rcases a with _ | x
  · simp [ageMultiplier]; norm_num
  · by_cases hx : x = 0
    · subst hx; simp [ageMultiplier]; norm_num
    · rw [ageMultiplier_QB_eq x hx]
      split_ifs with hd
      · obtain ⟨l, u⟩ := one_sub_clamp_bounds (0.015 * (x - 32)) 0.12 (1 - 0.12)
          (by norm_num) (by norm_num)
        exact ⟨l, by linarith⟩
      · obtain ⟨l, u⟩ := one_add_clamp_bounds (0.01 * -(x - 32)) 0.05 (1 + 0.05)
          (by norm_num) (by norm_num)
        exact ⟨by linarith, u⟩

/-- C4: for every position in {RB, WR, TE, QB} and every age, `ageMultiplier`
returns exactly 1 at that position's peak age (26/27/28/32) and when age is
unknown (`none`) or falsy (0), and its result always lies in
[1 - capDecline, 1 + capGrowth] for that position ([0.75, 1.08] for RB,
[0.82, 1.06] for WR, [0.88, 1.05] for TE, [0.88, 1.05] for QB); for any
other position it returns 1. -/
theorem ageMultiplier_claim :
    (ageMultiplier "RB" (some 26) = 1 ∧ ageMultiplier "WR" (some 27) = 1 ∧
     ageMultiplier "TE" (some 28) = 1 ∧ ageMultiplier "QB" (some 32) = 1) ∧
    (∀ pos, ageMultiplier pos none = 1 ∧ ageMultiplier pos (some 0) = 1) ∧
    (∀ a, 1 - 0.25 ≤ ageMultiplier "RB" a ∧ ageMultiplier "RB" a ≤ 1 + 0.08) ∧
    (∀ a, 1 - 0.18 ≤ ageMultiplier "WR" a ∧ ageMultiplier "WR" a ≤ 1 + 0.06) ∧
    (∀ a, 1 - 0.12 ≤ ageMultiplier "TE" a ∧ ageMultiplier "TE" a ≤ 1 + 0.05) ∧
    (∀ a, 1 - 0.12 ≤ ageMultiplier "QB" a ∧ ageMultiplier "QB" a ≤ 1 + 0.05) ∧
    (∀ pos, pos ∉ POSITIONS → ∀ a, ageMultiplier pos a = 1) := by
  refine ⟨⟨?_, ?_, ?_, ?_⟩, fun pos => ⟨by simp [ageMultiplier], by simp [ageMultiplier]⟩,
    ageMultiplier_RB_bounds, ageMultiplier_WR_bounds, ageMultiplier_TE_bounds,
    ageMultiplier_QB_bounds, fun pos hpos a => ?_⟩
  · rw [ageMultiplier_RB_eq 26 (by norm_num)]; norm_num [clamp]
  · rw [ageMultiplier_WR_eq 27 (by norm_num)]; norm_num [clamp]
  · rw [ageMultiplier_TE_eq 28 (by norm_num)]; norm_num [clamp]
  · rw [ageMultiplier_QB_eq 32 (by norm_num)]; norm_num [clamp]
  · have h1 : ¬(pos = "RB") := fun h => hpos (by simp [POSITIONS, h])
    have h2 : ¬(pos = "WR") := fun h => hpos (by simp [POSITIONS, h])
    have h3 : ¬(pos = "TE") := fun h => hpos (by simp [POSITIONS, h])
    have h4 : ¬(pos = "QB") := fun h => hpos (by simp [POSITIONS, h])
    simp [ageMultiplier, h1, h2, h3, h4]

/-- Witness for C4: the unknown-position clause at position "K", age 30. -/
theorem ageMultiplier_claim_witness : ageMultiplier "K" (some 30) = 1 :=
  ageMultiplier_claim.2.2.2.2.2.2 "K" (by decide) (some 30)

/-! ### Claim C3 -/

/-- A played week with a negative precomputed PPR total (e.g. a lone
interception-only line): upstream data the engine accepts unchanged. -/
def negRow : RawRow :=
  { player_id := "P1", season := some 2022, week := some 1, own := [("pts_ppr", -5)] }

def negPages : List (List RawRow) := [[negRow]]

def negPlayer : PlayerLite := { player_id := "P1", full_name := "Neg", position := "WR" }

/-- C3 counterexample: the projection builder emits `ppg = -5` for a player
whose only played week has `pts_ppr = -5`, so the emitted `ppg` is not
non-negative. -/
theorem buildProjections_ppg_negative :
    (buildProjectionsFor [negPlayer] negPages "PPR" 4).map ProjectionRow.ppg = [-5] ∧
    ¬(0 ≤ (-5 : ℚ)) := by
  constructor
  · simp [buildProjectionsFor, negPlayer, negPages, negRow, bucketFor, bucketRows, normalizeRow,
      getF2, getF3, getField, projectPPG, lastNPlayedPoints, average, didPlay, weeklyPoints,
      List.insertionSort, List.orderedInsert, ageMultiplier, List.find?]
  · norm_num

/-- C3 (amended): for every player and weekly-stat history, the `ppg` field
emitted by the projection builder is a finite number (trivially so in exact
arithmetic — the source additionally coerces non-finite float results to 0),
and it is non-negative whenever every contributing played week scores
non-negatively; it is not non-negative unconditionally (see the
counterexample). -/
theorem buildProjections_ppg_claim (players : List PlayerLite) (pages : List (List RawRow))
    (preset : String) (passTd : ℚ)
    (h : ∀ p ∈ players, ∀ w ∈ bucketFor pages p.player_id, didPlay w = true →
      0 ≤ weeklyPoints w preset passTd) :
    ∀ r ∈ buildProjectionsFor players pages preset passTd, 0 ≤ r.ppg := by
  intro r hr
  obtain ⟨p, hp, rfl⟩ := List.mem_map.mp hr
  refine mul_nonneg (average_nonneg _ ?_) (ageMultiplier_nonneg _ _)
  intro x hx
  obtain ⟨w, hw, hplay, rfl⟩ := lastN_mem _ 50 preset passTd x hx
  exact h p hp w hw hplay

def posRowStats : RawStats := [("pts_ppr", 10)]

def posPages : List (List RawRow) :=
  [[{ player_id := "P2", season := some 2022, week := some 1, own := posRowStats }]]

def posPlayer : PlayerLite := { player_id := "P2", full_name := "Pos", position := "WR" }

instance : Inhabited ProjectionRow := ⟨⟨"", "", "", none, 0⟩⟩

/-- Witness for C3 (amended) at a one-player, one-played-week input scoring
non-negatively. -/
theorem buildProjections_ppg_claim_witness :
    0 ≤ ((buildProjectionsFor [posPlayer] posPages "PPR" 4).headI).ppg := by
  refine buildProjections_ppg_claim [posPlayer] posPages "PPR" 4 ?_ _ ?_
  · intro p hp w hw hplay
    simp only [List.mem_singleton] at hp
    subst hp
    simp [bucketFor, bucketRows, posPages, posPlayer, posRowStats, normalizeRow, getF2, getF3,
      getField, List.find?] at hw
    subst hw
    simp [weeklyPoints, normalizeRow, getF2, getF3, getField, posRowStats, List.find?]
  · simp [buildProjectionsFor, List.headI]

/-! ### Claim C7 -/

theorem fetchWeek_skip_failures (pre rest : List FetchResult)
    (h : ∀ r ∈ pre, isFailure r = true) :
    fetchWeek (pre ++ rest) = fetchWeek rest := by
  induction pre with
  | nil => rfl
  | cons hd tl ih =>
    have hhd := h hd (List.mem_cons_self hd tl)
    have htl : ∀ r ∈ tl, isFailure r = true := fun r hr => h r (List.mem_cons_of_mem hd hr)
    cases hd with
    | thrown => simpa [fetchWeek] using ih htl
    | notOk => simpa [fetchWeek] using ih htl
    | ok b => simp [isFailure] at hhd

/-- C7: for every (season, week) page request, `fetchWeek` walks its fixed
ordered candidate list, swallowing thrown fetches (network errors, aborts,
timeouts) and non-OK responses and moving to the next candidate; a
successful response whose body wraps the array under a `stats` key yields
the same array as a bare-array body; and when every candidate fails or
throws it returns the empty array — it is a total function and never raises
to its caller. -/
theorem fetchWeek_claim :
    (∀ rest, fetchWeek (FetchResult.thrown :: rest) = fetchWeek rest) ∧
    (∀ rest, fetchWeek (FetchResult.notOk :: rest) = fetchWeek rest) ∧
    (∀ pre rows rest, (∀ r ∈ pre, isFailure r = true) →
      fetchWeek (pre ++ FetchResult.ok (Body.objStats rows) :: rest) = rows ∧
      fetchWeek (pre ++ FetchResult.ok (Body.arr rows) :: rest) = rows) ∧
    (∀ resps, (∀ r ∈ resps, isFailure r = true) → fetchWeek resps = []) := by
  refine ⟨fun rest => rfl, fun rest => rfl, fun pre rows rest h => ?_, fun resps h => ?_⟩
  · rw [fetchWeek_skip_failures pre _ h, fetchWeek_skip_failures pre _ h]
    exact ⟨rfl, rfl⟩
  · have := fetchWeek_skip_failures resps [] h
    simpa using this

/-- Witness for C7: the primary URL throws, the secondary returns
`{stats: [...]}`; the result equals the bare-array result, and an
all-failing candidate list yields `[]`. -/
theorem fetchWeek_claim_witness :
    fetchWeek [FetchResult.thrown,
      FetchResult.ok (Body.objStats [{ player_id := "P9", season := some 2024, week := some 1 }]),
      FetchResult.notOk]
      = [{ player_id := "P9", season := some 2024, week := some 1 }] ∧
    fetchWeek [FetchResult.thrown, FetchResult.notOk, FetchResult.thrown] = [] := by
  constructor
  · exact (fetchWeek_claim.2.2.1 [FetchResult.thrown]
      [{ player_id := "P9", season := some 2024, week := some 1 }] [FetchResult.notOk]
      (by decide)).1
  · exact fetchWeek_claim.2.2.2 [FetchResult.thrown, FetchResult.notOk, FetchResult.thrown]
      (by decide)

/-! ### Claim C8 -/

def dupRowA : RawRow :=
  { player_id := "P1", season := some 2022, week := some 1, own := [("pts_ppr", 10)] }

def dupRowB : RawRow :=
  { player_id := "P1", season := some 2022, week := some 2, own := [("pts_ppr", 20)] }

/-- One fetched page carrying the week-2 record twice. -/
def dupPages : List (List RawRow) := [[dupRowA, dupRowB, dupRowB]]

def dupPlayer : PlayerLite := { player_id := "P1", full_name := "Dup", position := "WR" }

/-- C8 counterexample: `buildProjectionsFor` performs no deduplication — a
duplicated (player_id, season, week) = ("P1", 2022, 2) record is counted
twice in the contributing bucket, both copies flow into the scoring window,
and the emitted ppg is 50/3 rather than the 15 a deduplicated history would
give. -/
theorem duplicate_identity_contributes :
    ((bucketFor dupPages "P1").countP
        (fun w => decide (w.season = 2022 ∧ w.week = 2)) = 2) ∧
    (lastNPlayedPoints (bucketFor dupPages "P1") 50 "PPR" 4 = [10, 20, 20]) ∧
    ((buildProjectionsFor [dupPlayer] dupPages "PPR" 4).map ProjectionRow.ppg = [50 / 3]) ∧
    (50 / 3 ≠ average [10, 20]) := by
  refine ⟨?_, ?_, ?_, ?_⟩
  · simp [bucketFor, bucketRows, dupPages, dupRowA, dupRowB, normalizeRow, getF2, getF3,
      getField, List.find?, List.countP, List.countP.go]
  · simp [bucketFor, bucketRows, dupPages, dupRowA, dupRowB, normalizeRow, getF2, getF3,
      getField, List.find?, lastNPlayedPoints, List.insertionSort, List.orderedInsert,
      didPlay, weeklyPoints, chronoR]
  · simp [buildProjectionsFor, dupPlayer, dupPages, dupRowA, dupRowB, bucketFor, bucketRows,
      normalizeRow, getF2, getF3, getField, List.find?, projectPPG, lastNPlayedPoints,
      List.insertionSort, List.orderedInsert, didPlay, weeklyPoints, chronoR, average,
      ageMultiplier]
    norm_num
  · simp [average]
    norm_num

theorem countP_eq_zero_of_all_pages {pages : List (List RawRow)} {q : WeeklyStat → Bool}
    (h : ∀ pg ∈ pages, ∀ x ∈ pg.filterMap normalizeRow, ¬q x = true) :
    (pages.flatMap (fun arr => arr.filterMap normalizeRow)).countP q = 0 := by
  induction pages with
  | nil => rfl
  | cons hd tl ih =>
    rw [List.flatMap_cons, List.countP_append]
    have h1 : (hd.filterMap normalizeRow).countP q = 0 :=
      List.countP_eq_zero.mpr (h hd (List.mem_cons_self hd tl))
    have h2 := ih (fun pg hpg => h pg (List.mem_cons_of_mem hd hpg))
    omega

/-- C8 (amended): at the page-fetch level the first successful source wins —
`fetchWeek` returns exactly the first ok candidate's extracted rows, so
fallback endpoints never add duplicate records for a page — but the builder
itself performs no deduplication; at most one record per
(player_id, season, week) contributes only under the data assumptions that
distinct fetched pages share no (season, week) identity and that each page
carries at most one row per player. -/
theorem dedup_claim :
    (∀ pre body rest, (∀ r ∈ pre, isFailure r = true) →
      fetchWeek (pre ++ FetchResult.ok body :: rest) = extractRows body) ∧
    (∀ pages : List (List RawRow),
      (∀ pg ∈ pages, ∀ id : String,
        (pg.filterMap normalizeRow).countP (fun w => decide (w.player_id = id)) ≤ 1) →
      pages.Pairwise (fun pg1 pg2 => ∀ x ∈ pg1.filterMap normalizeRow,
        ∀ y ∈ pg2.filterMap normalizeRow, ¬(x.season = y.season ∧ x.week = y.week)) →
      ∀ id s w, (bucketFor pages id).countP
        (fun x => decide (x.season = s ∧ x.week = w)) ≤ 1) := by
  constructor
  · intro pre body rest h
    rw [fetchWeek_skip_failures pre _ h]
    rfl
  · intro pages huniq hdist id s w
    unfold bucketFor bucketRows
    rw [List.countP_filter]
    induction pages with
    | nil => simp
    | cons hd tl ih =>
      rw [List.flatMap_cons, List.countP_append]
      obtain ⟨hdfst, hdtl⟩ := List.pairwise_cons.mp hdist
      have huhd := huniq hd (List.mem_cons_self hd tl)
      have hutl : ∀ pg ∈ tl, ∀ id : String,
          (pg.filterMap normalizeRow).countP (fun w => decide (w.player_id = id)) ≤ 1 :=
        fun pg hpg => huniq pg (List.mem_cons_of_mem hd hpg)
      have ihv := ih hutl hdtl
      by_cases hc : ∃ x ∈ hd.filterMap normalizeRow, x.season = s ∧ x.week = w
      · obtain ⟨x, hx, hxs⟩ := hc
        have htl0 : (tl.flatMap (fun arr => arr.filterMap normalizeRow)).countP
            (fun x => decide (x.season = s ∧ x.week = w) && decide (x.player_id = id)) = 0 := by
          apply countP_eq_zero_of_all_pages
          intro pg hpg y hy hq
          simp only [Bool.and_eq_true, decide_eq_true_eq] at hq
          exact hdfst pg hpg x hx y hy ⟨hxs.1.trans hq.1.1.symm, hxs.2.trans hq.1.2.symm⟩
        have hhd : (hd.filterMap normalizeRow).countP
            (fun x => decide (x.season = s ∧ x.week = w) && decide (x.player_id = id)) ≤ 1 := by
          refine le_trans (List.countP_mono_left ?_) (huhd id)
          intro y hy hq
          simp only [Bool.and_eq_true] at hq
          exact hq.2
        omega
      · have hhd0 : (hd.filterMap normalizeRow).countP
            (fun x => decide (x.season = s ∧ x.week = w) && decide (x.player_id = id)) = 0 := by
          apply List.countP_eq_zero.mpr
          intro y hy hq
          simp only [Bool.and_eq_true, decide_eq_true_eq] at hq
          exact hc ⟨y, hy, hq.1⟩
        omega

/-- Witness for C8 (amended) at a two-page input with distinct week
identities and one row per page. -/
theorem dedup_claim_witness :
    (bucketFor [[dupRowA], [dupRowB]] "P1").countP
      (fun x => decide (x.season = 2022 ∧ x.week = 2)) ≤ 1 := by
  refine dedup_claim.2 [[dupRowA], [dupRowB]] ?_ ?_ "P1" 2022 2
  · intro pg hpg id
    refine le_trans (List.countP_le_length _) ?_
    fin_cases hpg <;> simp [dupRowA, dupRowB, normalizeRow]
  · refine List.Pairwise.cons ?_ (List.Pairwise.cons ?_ List.Pairwise.nil)
    · intro pg' hpg' x hx y hy
      fin_cases hpg'
      simp [dupRowA, normalizeRow, getF2, getF3, getField, List.find?] at hx
      simp [dupRowB, normalizeRow, getF2, getF3, getField, List.find?] at hy
      subst hx
      subst hy
      norm_num
    · intro pg' hpg'
      cases hpg'

/-! ### Claim C9 -/

/-- C9: a request supplying a position outside {QB, RB, WR, TE} (e.g.
KICKER) and no `ids` parameter gets the 400 client-error response with its
descriptive message — not an empty successful response — and the caches are
untouched. -/
theorem invalid_position_claim (st : ServerState) (now : ℚ) (req : ReqParams)
    (fetchPlayersR : Except Unit (List PlayerLite))
    (build : String → ℚ → List PlayerLite → Except Unit (List ProjectionRow))
    (hids : req.ids = none)
    (hpos : upper (req.pos.getD "") ∉ POSITIONS) :
    (GET st now req fetchPlayersR build).1
      = HResp.clientError "Provide ?pos=QB|RB|WR|TE or ids=..." ∧
    statusOf (GET st now req fetchPlayersR build).1 = 400 ∧
    "Provide ?pos=QB|RB|WR|TE or ids=..." ≠ "" ∧
    (GET st now req fetchPlayersR build).2.1 = st := by
  refine ⟨?_, ?_, by decide, ?_⟩ <;> simp [GET, hids, hpos, statusOf]

/-- Witness for C9: `pos=KICKER`, no ids. -/
theorem invalid_position_claim_witness :
    (GET {} 0 { pos := some "KICKER" } (Except.ok []) (fun _ _ _ => Except.ok [])).1
      = HResp.clientError "Provide ?pos=QB|RB|WR|TE or ids=..." :=
  (invalid_position_claim {} 0 { pos := some "KICKER" } (Except.ok [])
    (fun _ _ _ => Except.ok []) rfl (by decide)).1

/-! ### Claim C10 -/

/-- C10: a preset outside {PPR, HALF_PPR, STANDARD} is not rejected as an
invalid parameter: every week is scored by the raw component formula with
catch bonus 0, a present `pts_std` is ignored (unlike STANDARD), and the
request itself succeeds (status 200) whenever the position is valid. -/
theorem unknown_preset_claim (preset : String)
    (hpre : preset ∉ ["PPR", "HALF_PPR", "STANDARD"]) :
    (∀ stat passTd, weeklyPoints stat preset passTd = specRawPoints stat passTd 0) ∧
    (∀ (stat : WeeklyStat) (v passTd : ℚ),
      weeklyPoints { stat with pts_std := some v } preset passTd
        = weeklyPoints stat preset passTd) ∧
    (∀ st now (req : ReqParams) playersL pages, req.preset = some preset →
      req.ids = none → upper (req.pos.getD "") ∈ POSITIONS →
      statusOf (GETPure st now req playersL pages).1 = 200) := by
  have h1 : ¬(preset = "PPR") := fun h => hpre (by simp [h])
  have h2 : ¬(preset = "HALF_PPR") := fun h => hpre (by simp [h])
  have h3 : ¬(preset = "STANDARD") := fun h => hpre (by simp [h])
  refine ⟨fun stat passTd => ?_, fun stat v passTd => ?_,
    fun st now req playersL pages hreq hids hpos => ?_⟩
  · simp [weeklyPoints, specRawPoints, h1, h2, h3]; ring
  · simp [weeklyPoints, h1, h2, h3]
  · have hc : POSITIONS.contains (upper (req.pos.getD "")) = true := by simpa using hpos
    simp only [GETPure, GET, hids, hc, if_true]
    rcases hm : mapGet st.posCache (upper (req.preset.getD "PPR"),
        if req.passTdRaw.getD 4 = 6 then (6 : ℚ) else 4, upper (req.pos.getD "")) with _ | c
    · simp [hm, posRebuild, pureBuild, statusOf]
    · simp only [hm]
      split_ifs <;> simp [posRebuild, pureBuild, statusOf]

/-- A stat line with a present precomputed standard total. -/
def c10stat : WeeklyStat :=
  { week := 1, season := 2024, player_id := "x", pts_std := some 99, rush_yd := some 50 }

/-- Witness for C10 at preset "BESTBALL": a present `pts_std` is ignored and
the raw formula with bonus 0 applies; a `pos=RB` request with that preset
succeeds. -/
theorem unknown_preset_claim_witness :
    weeklyPoints c10stat "BESTBALL" 4 = specRawPoints c10stat 4 0 ∧
    statusOf (GETPure {} 0 { preset := some "BESTBALL", pos := some "RB" } [] []).1 = 200 :=
  ⟨(unknown_preset_claim "BESTBALL" (by decide)).1 c10stat 4,
   (unknown_preset_claim "BESTBALL" (by decide)).2.2 {} 0
     { preset := some "BESTBALL", pos := some "RB" } [] [] rfl rfl (by decide)⟩

/-! ### Claim C5 -/

/-- Abbreviation for the rows the position path stores on a rebuild: the
build over the position-filtered roster, positions pinned to the requested
bucket. -/
def rebuildRows (playersL : List PlayerLite) (pages : List (List RawRow)) (preset : String)
    (passTd : ℚ) (P : String) : List ProjectionRow :=
  (buildProjectionsFor (playersL.filter (fun p => decide (upper p.position = P))) pages preset
    passTd).map (fun r => { r with position := P })

/-- C5: a position lookup whose cache entry is younger than the 12-hour TTL
is served from the cached rows with the builder not invoked (build count 0)
and the whole cache state unmodified; a lookup whose entry is absent or at
least TTL old rebuilds the rows and overwrites the entry with timestamp
`now` (build count 1). -/
theorem posCache_ttl_claim (st : ServerState) (now : ℚ) (req : ReqParams)
    (playersL : List PlayerLite) (pages : List (List RawRow))
    (preset : String) (passTd : ℚ) (P : String) (limit : Nat)
    (hpre : upper (req.preset.getD "PPR") = preset)
    (hptd : (if req.passTdRaw.getD 4 = 6 then (6 : ℚ) else 4) = passTd)
    (hlim : (⌊clamp (req.limitRaw.getD 50) 1 200⌋).toNat = limit)
    (hids : req.ids = none)
    (hP : upper (req.pos.getD "") = P)
    (hmem : P ∈ POSITIONS) :
    (∀ c, mapGet st.posCache (preset, passTd, P) = some c → now - c.atTime < STALE_MS →
      GETPure st now req playersL pages
        = (HResp.ok preset passTd (pruneCached c.rows req.exclude P limit), st, 0)) ∧
    ((mapGet st.posCache (preset, passTd, P) = none ∨
      ∃ c, mapGet st.posCache (preset, passTd, P) = some c ∧ STALE_MS ≤ now - c.atTime) →
      GETPure st now req playersL pages
        = (HResp.ok preset passTd
            (pruneBuilt (rebuildRows playersL pages preset passTd P) req.exclude limit),
          { st with posCache := (mapSet st.posCache (preset, passTd, P)
              ⟨now, rebuildRows playersL pages preset passTd P⟩) }, 1)) := by
  have hc : POSITIONS.contains P = true := by simpa using hmem
  constructor
  · intro c hget hfresh
    simp only [GETPure, GET, hids, hpre, hptd, hlim, hP, hc, if_true, hget]
    rw [if_pos hfresh]
  · intro hmiss
    rcases hmiss with hnone | ⟨c, hget, hstale⟩
    · simp only [GETPure, GET, hids, hpre, hptd, hlim, hP, hc, if_true, hnone]
      simp [posRebuild, pureBuild, rebuildRows]
    · simp only [GETPure, GET, hids, hpre, hptd, hlim, hP, hc, if_true, hget]
      rw [if_neg (not_lt.mpr hstale)]
      simp [posRebuild, pureBuild, rebuildRows]

def c5row : ProjectionRow := { player_id := "9", full_name := "Cached", position := "RB", ppg := 9 }

def c5key : CacheKey := ("PPR", 4, "RB")

def c5st : ServerState := { posCache := [(c5key, ⟨0, [c5row]⟩)] }

def c5req : ReqParams := { pos := some "RB" }

/-- Witness for C5: a fresh hit (age 1000ms) is served from the cache with
zero builds; on the empty cache the same request rebuilds and overwrites. -/
theorem posCache_ttl_claim_witness :
    GETPure c5st 1000 c5req [] []
      = (HResp.ok "PPR" 4 (pruneCached [c5row] [] "RB" 50), c5st, 0) ∧
    GETPure {} 1000 c5req [] []
      = (HResp.ok "PPR" 4 (pruneBuilt [] [] 50),
         { posCache := (mapSet [] ("PPR", 4, "RB") (⟨1000, []⟩ : PosEntry)) }, 1) := by
  have hptd : (if c5req.passTdRaw.getD 4 = 6 then (6 : ℚ) else 4) = 4 := by
    norm_num [c5req]
  have hlim : (⌊clamp (c5req.limitRaw.getD 50) 1 200⌋).toNat = 50 := by
    norm_num [c5req, clamp, min_def, max_def]
    decide
  constructor
  · have h := (posCache_ttl_claim c5st 1000 c5req [] [] "PPR" 4 "RB" 50
      (by decide) hptd hlim rfl (by decide) (by decide)).1
      ⟨0, [c5row]⟩ (by simp [c5st, c5key, mapGet, List.find?]) (by norm_num [STALE_MS])
    simpa [c5req] using h
  · have h := (posCache_ttl_claim {} 1000 c5req [] [] "PPR" 4 "RB" 50
      (by decide) hptd hlim rfl (by decide) (by decide)).2
      (Or.inl (by simp [mapGet]))
    simpa [c5req, rebuildRows, buildProjectionsFor] using h

/-! ### Claim C6 -/

theorem find?_filter_ne {α : Type} (m : List (CacheKey × α)) (k k' : CacheKey) (h : ¬k' = k) :
    (m.filter (fun p => !(decide (p.1 = k)))).find? (fun p => decide (p.1 = k'))
      = m.find? (fun p => decide (p.1 = k')) := by
  induction m with
  | nil => rfl
  | cons hd tl ih =>
    by_cases h1 : hd.1 = k
    · rw [List.filter_cons_of_neg (by simp [h1])]
      rw [List.find?_cons_of_neg _ (by simp only [h1, decide_eq_true_eq]; exact fun hh => h hh.symm)]
      exact ih
    · rw [List.filter_cons_of_pos (by simp [h1])]
      by_cases h2 : hd.1 = k'
      · rw [List.find?_cons_of_pos _ (by simp [h2]), List.find?_cons_of_pos _ (by simp [h2])]
      · rw [List.find?_cons_of_neg _ (by simp [h2]), List.find?_cons_of_neg _ (by simp [h2])]
        exact ih

theorem mapGet_mapSet {α : Type} (m : List (CacheKey × α)) (k k' : CacheKey) (v : α) :
    mapGet (mapSet m k v) k' = if k' = k then some v else mapGet m k' := by
  by_cases h : k' = k
  · subst h
    rw [if_pos rfl]
    simp [mapGet, mapSet, List.find?]
  · rw [if_neg h]
    unfold mapGet mapSet
    rw [List.find?_cons_of_neg _ (by simp only [decide_eq_true_eq]; exact fun hh => h hh.symm),
      find?_filter_ne m k k' h]

/-- Every ids-cache entry the loop changes was written whole from a
successful single-player build: timestamp `now`, payload the built row. -/
theorem idsLoop_write_sound
    (build : String → ℚ → List PlayerLite → Except Unit (List ProjectionRow))
    (preset : String) (passTd : ℚ) (now : ℚ) :
    ∀ (ps : List PlayerLite) (cache : List (CacheKey × IdEntry))
      (acc : List (Option ProjectionRow)) (b : Nat) (k : CacheKey),
      ¬mapGet (idsLoop build preset passTd now ps cache acc b).cache k = mapGet cache k →
      ∃ p rows, p ∈ ps ∧ k = (preset, passTd, p.player_id) ∧
        build preset passTd [p] = Except.ok rows ∧
        mapGet (idsLoop build preset passTd now ps cache acc b).cache k
          = some ⟨now, rows.head?⟩ := by
  intro ps
  induction ps with
  | nil =>
    intro cache acc b k h
    exact absurd rfl h
  | cons p rest ih =>
    intro cache acc b k h
    simp only [idsLoop] at h ⊢
    rcases hm : mapGet cache (preset, passTd, p.player_id) with _ | c
    · simp only [hm] at h ⊢
      rcases hb : build preset passTd [p] with e | rows
      · simp only [hb] at h
        exact absurd trivial h
      · simp only [hb] at h ⊢
        by_cases h2 : mapGet (idsLoop build preset passTd now rest
            (mapSet cache (preset, passTd, p.player_id) ⟨now, rows.head?⟩)
            (rows.head? :: acc) (b + 1)).cache k
          = mapGet (mapSet cache (preset, passTd, p.player_id) ⟨now, rows.head?⟩) k
        · rw [h2] at h ⊢
          rw [mapGet_mapSet] at h ⊢
          by_cases hk : k = (preset, passTd, p.player_id)
          · rw [if_pos hk]
            exact ⟨p, rows, List.mem_cons_self p rest, hk, hb, rfl⟩
          · rw [if_neg hk] at h
            exact absurd rfl h
        · obtain ⟨p', rows', hp', hk, hbok, hval⟩ := ih _ _ _ _ h2
          exact ⟨p', rows', List.mem_cons_of_mem p hp', hk, hbok, hval⟩
    · simp only [hm] at h ⊢
      by_cases hf : now - c.atTime < STALE_MS ∧ c.row.isSome
      · rw [if_pos hf] at h ⊢
        obtain ⟨p', rows', hp', hk, hbok, hval⟩ := ih _ _ _ _ h
        exact ⟨p', rows', List.mem_cons_of_mem p hp', hk, hbok, hval⟩
      · rw [if_neg hf] at h ⊢
        rcases hb : build preset passTd [p] with e | rows
        · simp only [hb] at h
          exact absurd trivial h
        · simp only [hb] at h ⊢
          by_cases h2 : mapGet (idsLoop build preset passTd now rest
              (mapSet cache (preset, passTd, p.player_id) ⟨now, rows.head?⟩)
              (rows.head? :: acc) (b + 1)).cache k
            = mapGet (mapSet cache (preset, passTd, p.player_id) ⟨now, rows.head?⟩) k
          · rw [h2] at h ⊢
            rw [mapGet_mapSet] at h ⊢
            by_cases hk : k = (preset, passTd, p.player_id)
            · rw [if_pos hk]
              exact ⟨p, rows, List.mem_cons_self p rest, hk, hb, rfl⟩
            · rw [if_neg hk] at h
              exact absurd rfl h
          · obtain ⟨p', rows', hp', hk, hbok, hval⟩ := ih _ _ _ _ h2
            exact ⟨p', rows', List.mem_cons_of_mem p hp', hk, hbok, hval⟩

def c6p1 : PlayerLite := { player_id := "1", full_name := "One", position := "RB" }

def c6p2 : PlayerLite := { player_id := "2", full_name := "Two", position := "RB" }

def c6row1 : ProjectionRow := { player_id := "1", full_name := "One", position := "RB", ppg := 5 }

/-- A build that throws exactly on player "2" and returns a complete row
otherwise. -/
def c6build : String → ℚ → List PlayerLite → Except Unit (List ProjectionRow) :=
  fun _ _ ps =>
    if ps.any (fun p => p.player_id == "2") then Except.error () else Except.ok [c6row1]

def c6req : ReqParams := { ids := some ["1", "2"] }

/-- C6 counterexample: on an ids request of two players where the second
player's build throws, the handler does return the generic failure
response, but the cache tables are not left exactly as they were before the
request: the ids-cache entry written for the first player persists. -/
theorem GET_failure_mutates_cache :
    (GET {} 1000 c6req (Except.ok [c6p1, c6p2]) c6build).1 = HResp.serverError ∧
    (GET {} 1000 c6req (Except.ok [c6p1, c6p2]) c6build).2.1
      = { idsCache := [(("PPR", 4, "1"), ⟨1000, some c6row1⟩)] } ∧
    ¬(GET {} 1000 c6req (Except.ok [c6p1, c6p2]) c6build).2.1 = ({} : ServerState) := by
  refine ⟨?_, ?_, ?_⟩ <;> decide

/-- C6 (amended): when the projection build (or the roster fetch) raises,
the handler returns the generic failure response; on the position path both
cache tables are left exactly as they were, so a previously stored (stale)
entry is never overwritten with partial data; on the ids path the position
cache is untouched and every ids-cache entry that changed was written whole
from a fully successful single-player build — the failing player's entry is
never written — though entries from players built successfully earlier in
the same request do persist (see the counterexample). -/
theorem GET_build_failure_claim (st : ServerState) (now : ℚ) (req : ReqParams)
    (fetchPlayersR : Except Unit (List PlayerLite))
    (build : String → ℚ → List PlayerLite → Except Unit (List ProjectionRow))
    (preset : String) (passTd : ℚ)
    (hpre : upper (req.preset.getD "PPR") = preset)
    (hptd : (if req.passTdRaw.getD 4 = 6 then (6 : ℚ) else 4) = passTd) :
    (∀ P, req.ids = none → upper (req.pos.getD "") = P → P ∈ POSITIONS →
      (mapGet st.posCache (preset, passTd, P) = none ∨
        ∃ c, mapGet st.posCache (preset, passTd, P) = some c ∧ STALE_MS ≤ now - c.atTime) →
      fetchPlayersR = Except.error () →
      GET st now req fetchPlayersR build = (HResp.serverError, st, 0)) ∧
    (∀ P all, req.ids = none → upper (req.pos.getD "") = P → P ∈ POSITIONS →
      (mapGet st.posCache (preset, passTd, P) = none ∨
        ∃ c, mapGet st.posCache (preset, passTd, P) = some c ∧ STALE_MS ≤ now - c.atTime) →
      fetchPlayersR = Except.ok all →
      build preset passTd (all.filter (fun p => decide (upper p.position = P)))
        = Except.error () →
      GET st now req fetchPlayersR build = (HResp.serverError, st, 1)) ∧
    (∀ idsL all, req.ids = some idsL → fetchPlayersR = Except.ok all →
      (GET st now req fetchPlayersR build).2.1.posCache = st.posCache ∧
      (∀ k, ¬mapGet (GET st now req fetchPlayersR build).2.1.idsCache k
          = mapGet st.idsCache k →
        ∃ p rows, p ∈ all.filter (fun q => idsL.contains q.player_id) ∧
          k = (preset, passTd, p.player_id) ∧
          build preset passTd [p] = Except.ok rows ∧
          mapGet (GET st now req fetchPlayersR build).2.1.idsCache k
            = some ⟨now, rows.head?⟩)) := by
  refine ⟨fun P hids hP hmem hmiss hferr => ?_, fun P all hids hP hmem hmiss hfok hberr => ?_,
    fun idsL all hids hfok => ?_⟩
  · have hc : POSITIONS.contains P = true := by simpa using hmem
    rcases hmiss with hnone | ⟨c, hget, hstale⟩
    · simp only [GET, hids, hpre, hptd, hP, hc, if_true, hnone, hferr]
      simp [posRebuild]
    · simp only [GET, hids, hpre, hptd, hP, hc, if_true, hget]
      rw [if_neg (not_lt.mpr hstale)]
      simp [posRebuild, hferr]
  · have hc : POSITIONS.contains P = true := by simpa using hmem
    rcases hmiss with hnone | ⟨c, hget, hstale⟩
    · simp only [GET, hids, hpre, hptd, hP, hc, if_true, hnone, hfok]
      simp [posRebuild, hberr]
    · simp only [GET, hids, hpre, hptd, hP, hc, if_true, hget, hfok]
      rw [if_neg (not_lt.mpr hstale)]
      simp [posRebuild, hberr]
  · simp only [GET, hids, hpre, hptd, hfok]
    rcases hr : (idsLoop build preset passTd now
        (all.filter (fun q => idsL.contains q.player_id)) st.idsCache [] 0).result
      with e | out
    · simp only [hr]
      exact ⟨trivial, fun k h => idsLoop_write_sound build preset passTd now _ _ _ _ k h⟩
    · simp only [hr]
      exact ⟨trivial, fun k h => idsLoop_write_sound build preset passTd now _ _ _ _ k h⟩

/-- Witness for C6 (amended): on the position path with an empty cache and a
throwing build, the handler answers 500 with the state exactly unchanged. -/
theorem GET_build_failure_claim_witness :
    GET {} 1000 { pos := some "RB" } (Except.ok []) (fun _ _ _ => Except.error ())
      = (HResp.serverError, {}, 1) :=
  (GET_build_failure_claim {} 1000 { pos := some "RB" } (Except.ok [])
      (fun _ _ _ => Except.error ()) "PPR" 4 (by decide) (by norm_num)).2.1
    "RB" [] rfl (by decide) (by decide) (Or.inl rfl) rfl rfl

end NFLDraft
